import Mathlib

/-!
Verification development for the simple-cicd-webhook repository.

The JavaScript sources are shallowly embedded as Lean functions:
  * request data is a record of optional string fields (absent fields are
    `none`, matching `undefined` in the source);
  * JavaScript truthiness of string-valued expressions is modelled by
    `jsTruthy` (absent or empty string is falsy);
  * the `a || b` fallback chains of the source are modelled by `jsOr`;
  * filesystem access is abstracted by explicit oracles passed as arguments;
  * JavaScript object spread (later keys override earlier keys) is modelled
    by list concatenation together with the last-binding-wins `objLookup`.
-/

namespace Webhook

/-- JavaScript truthiness for an optional string value: `undefined` and the
empty string are falsy, every other string is truthy. -/
def jsTruthy : Option String → Bool
  | none => false
  | some s => s ≠ ""

/-- The JavaScript expression `a || b` restricted to string-valued operands:
returns `a` when `a` is truthy, otherwise `b`. -/
def jsOr (a b : Option String) : Option String :=
  if jsTruthy a then a else b

/-- Remove the first occurrence of `pat` from a character list, leaving the
list unchanged when `pat` does not occur.  This is the semantics of the
JavaScript call `s.replace(pat, '')` with a string pattern. -/
def removeFirst (pat : List Char) : List Char → List Char
  | [] => []
  | c :: rest =>
    if pat.isPrefixOf (c :: rest) then (c :: rest).drop pat.length
    else c :: removeFirst pat rest

/-- `s.replace(pat, '')` of JavaScript: remove the first occurrence of `pat`. -/
def replaceFirstStr (s pat : String) : String :=
  ⟨removeFirst pat.data s.data⟩

/-- Whether `pat` occurs as a contiguous sublist. -/
def containsSubList (pat : List Char) : List Char → Bool
  | [] => pat.isPrefixOf ([] : List Char)
  | c :: rest => pat.isPrefixOf (c :: rest) || containsSubList pat rest

/-- The JavaScript call `s.includes(pat)`. -/
def containsSub (s pat : String) : Bool :=
  containsSubList pat.data s.data

/-- `p.startsWith(s)` of JavaScript (and `startsWith` of the Node sources),
as a character-list prefix test. -/
def isPrefixStr (p s : String) : Bool :=
  p.data.isPrefixOf s.data

/-- `s.endsWith(p)` of JavaScript, as a character-list suffix test. -/
def isSuffixStr (p s : String) : Bool :=
  p.data.reverse.isPrefixOf s.data.reverse

/-- `s.trim()` of JavaScript: strip leading and trailing whitespace. -/
def trimStr (s : String) : String :=
  ⟨(((s.data.dropWhile Char.isWhitespace).reverse.dropWhile
      Char.isWhitespace).reverse)⟩

/-- `s.substring(0, n)` of JavaScript: the first `n` characters. -/
def jsSubstring (s : String) (n : Nat) : String :=
  ⟨s.data.take n⟩

/-- Split a character list on a separator character, keeping empty pieces
(the behaviour of `s.split(sep)` for a one-character separator). -/
def splitOnCharAux (sep : Char) : List Char → List Char → List String
  | [], acc => [⟨acc.reverse⟩]
  | c :: rest, acc =>
    if c = sep then (⟨acc.reverse⟩ : String) :: splitOnCharAux sep rest []
    else splitOnCharAux sep rest (c :: acc)

/-- Split a string on a separator character. -/
def splitOnChar (sep : Char) (s : String) : List String :=
  splitOnCharAux sep s.data []

/-- Join strings with `/` separators. -/
def intercalateSlash : List String → String
  | [] => ""
  | [s] => s
  | s :: rest => s ++ "/" ++ intercalateSlash rest

/-! ## keyManager.js -/

/-- `loadAuthorizedKeys(filePath)` from src/utils/keyManager.js, with the file
system abstracted as the optional file contents (`none` when the file does
not exist, in which case the source returns `[]`).  The source splits the
contents on newlines, trims every line, and keeps the lines that are truthy
and do not start with a `#`. -/
def loadAuthorizedKeys : Option String → List String
  | none => []
  | some content =>
    ((splitOnChar '\n' content).map trimStr).filter
      (fun line => line ≠ "" && !(isPrefixStr "#" line))

/-- `verifyToken(token, authorizedKeys)` from src/utils/keyManager.js.
A falsy token (absent or empty) is rejected immediately; otherwise the
trimmed token is compared for exact equality against every trimmed stored
entry. -/
def verifyToken (token : Option String) (authorizedKeys : List String) : Bool :=
  match token with
  | none => false
  | some t =>
    if t = "" then false
    else authorizedKeys.any (fun key => trimStr key = trimStr t)

/-! ## middleware/auth.js -/

/-- The request fields consulted by the authentication middleware.
`clientKey` is the context field that downstream code reads; it starts out
absent and the middleware in src/middleware/auth.js never assigns it. -/
structure AuthRequest where
  bodyToken : Option String
  queryToken : Option String
  xWebhookToken : Option String
  authorization : Option String
  clientKey : Option String := none
deriving DecidableEq

/-- The token-extraction expression of `authenticateWebhook` in
src/middleware/auth.js:

  req.query.token || req.body?.token || req.headers['x-webhook-token']
    || req.headers['authorization']?.replace('Bearer ', '')

Note the source consults the query parameter before the body field, and the
authorization header is not checked for a `Bearer ` prefix: `replace` simply
deletes the first occurrence of the substring, returning the raw header
value unchanged when the substring is absent. -/
def extractToken (req : AuthRequest) : Option String :=
  jsOr req.queryToken
    (jsOr req.bodyToken
      (jsOr req.xWebhookToken
        (req.authorization.map (fun a => replaceFirstStr a "Bearer "))))

/-- Outcome of an Express middleware: either a response is written (status
code and message) and the chain stops, or `next()` is called with the
(possibly updated) request. -/
inductive AuthResult where
  | fail (status : Nat) (message : String)
  | next (req : AuthRequest)
deriving DecidableEq

/-- `authenticateWebhook(req, res, next)` from src/middleware/auth.js.
A falsy token yields 401 with the exact no-token message; a token that fails
`verifyToken` yields 403 with the exact invalid-token message; otherwise the
middleware calls `next()` without modifying the request (in particular it
does not assign `req.clientKey`). -/
def authenticateWebhook (req : AuthRequest) (authorizedKeys : List String) :
    AuthResult :=
  match extractToken req with
  | none => .fail 401 "Unauthorized: No token provided"
  | some t =>
    if t = "" then .fail 401 "Unauthorized: No token provided"
    else if verifyToken (some t) authorizedKeys then .next req
    else .fail 403 "Forbidden: Invalid or unauthorized token"

/-! ## utils/requestHelpers.js (bundled in the keyManager source file) -/

/-- First truthy value of a list of optional strings, `none` when every
value is falsy — the loop of `getParam` in utils/requestHelpers.js, which
skips values that are `undefined`, `null` or the empty string. -/
def firstTruthy : List (Option String) → Option String
  | [] => none
  | v :: rest => if jsTruthy v then v else firstTruthy rest

/-- `getToken(req)` from utils/requestHelpers.js: body field first, then
query parameter, then the x-webhook-token header, and finally the
authorization header, which contributes a token only when it starts with
the exact `Bearer ` prefix. -/
def getToken (req : AuthRequest) : Option String :=
  match firstTruthy [req.bodyToken, req.queryToken] with
  | some t => some t
  | none =>
    if jsTruthy req.xWebhookToken then req.xWebhookToken
    else
      match req.authorization with
      | none => none
      | some a =>
        if a ≠ "" && isPrefixStr "Bearer " a then
          some (replaceFirstStr a "Bearer ")
        else none

/-! ## utils/projectManager.js -/

/-- `getClientProject(clientKey)` from src/utils/projectManager.js.  The
client→project store is the `clients` object of the loaded JSON document,
modelled as an association list from exact client-key strings to project
names.  A falsy key returns `null`; otherwise the key is trimmed and looked
up by exact string equality. -/
def getClientProject (clientKey : Option String)
    (clients : List (String × String)) : Option String :=
  match clientKey with
  | none => none
  | some k =>
    if k = "" then none
    else (clients.find? (fun p => p.1 = trimStr k)).map (·.2)

/-! ## utils/validators.js (the unnamed validators source file) -/

/-- `containsInvalidPathChars(str)` from the validators module: a falsy or
missing string counts as invalid, otherwise the string is scanned for the
substrings listed in `SECURITY.INVALID_PATH_CHARS`, namely `..`, `/` and a
backslash. -/
def containsInvalidPathChars (str : Option String) : Bool :=
  match str with
  | none => true
  | some s =>
    if s = "" then true
    else containsSub s ".." || containsSub s "/" || containsSub s "\\"

/-- The regular expression test shared by the project-name and job-name
validators: at least one character, all of them ASCII alphanumerics,
underscores or hyphens. -/
def matchesSafeNamePattern (s : String) : Bool :=
  s.data ≠ [] && s.data.all (fun c => c.isAlphanum || c = '_' || c = '-')

/-- `isValidProjectName(projectName)` from the validators module. -/
def isValidProjectName (projectName : Option String) : Bool :=
  match projectName with
  | none => false
  | some s =>
    if s = "" then false
    else if containsInvalidPathChars (some s) then false
    else if isPrefixStr "." s then false
    else matchesSafeNamePattern s

/-- `isValidJobName(jobName)` from the validators module; the source body is
identical to the project-name validator. -/
def isValidJobName (jobName : Option String) : Bool :=
  match jobName with
  | none => false
  | some s =>
    if s = "" then false
    else if containsInvalidPathChars (some s) then false
    else if isPrefixStr "." s then false
    else matchesSafeNamePattern s

/-! ## Path model

Node's `path.resolve` on an absolute input path (no symlink resolution)
splits on `/`, drops empty and `.` segments, lets `..` pop the previous
segment, and reassembles an absolute path without a trailing separator.
`path.join(base, ...segments)` concatenates with `/` separators and
normalises; since `sanitizePath` immediately resolves the joined path, the
model performs the normalisation once, inside `resolveAbs`. -/

/-- Normalise path segments: empty and `.` segments vanish, `..` removes the
preceding segment. -/
def normSegs (segs : List String) : List String :=
  segs.foldl
    (fun acc seg =>
      if seg = "" || seg = "." then acc
      else if seg = ".." then acc.dropLast
      else acc ++ [seg])
    []

/-- `path.resolve` for an absolute path. -/
def resolveAbs (p : String) : String :=
  "/" ++ intercalateSlash (normSegs (splitOnChar '/' p))

/-- `path.join(basePath, ...segments)` before normalisation. -/
def joinPath (basePath : String) (segments : List String) : String :=
  intercalateSlash (basePath :: segments)

/-- `sanitizePath(basePath, ...segments)` from the validators module: join
the segments onto the base, resolve both the joined path and the base, and
accept exactly when the resolved base is a string prefix of the resolved
path (the source literally calls `resolvedPath.startsWith(resolvedBase)`),
returning the resolved path; otherwise return `null`. -/
def sanitizePath (basePath : String) (segments : List String) : Option String :=
  let fullPath := joinPath basePath segments
  let resolvedPath := resolveAbs fullPath
  let resolvedBase := resolveAbs basePath
  if isPrefixStr resolvedBase resolvedPath then some resolvedPath else none

/-- The acceptance condition that the specification describes for the
path-safety check (stated from the spec's words, for comparison with
`sanitizePath`): the canonical joined path must be exactly the canonical
root, or start with the canonical root followed by a path separator. -/
def sanitizePathSpecAccepts (basePath : String) (segments : List String) : Bool :=
  let resolvedPath := resolveAbs (joinPath basePath segments)
  let resolvedBase := resolveAbs basePath
  resolvedPath = resolvedBase || isPrefixStr (resolvedBase ++ "/") resolvedPath

/-- `jobExists(projectName, jobName)` from src/utils/projectManager.js
(the variant built on `sanitizePath`), with the filesystem abstracted as an
existence oracle on resolved paths and the jobs root as a parameter.
Falsy names, invalid names and a `null` from `sanitizePath` all yield the
`false` sentinel without touching the oracle. -/
def jobExists (jobsDir : String) (fsExists : String → Bool)
    (projectName jobName : String) : Bool :=
  if projectName = "" || jobName = "" then false
  else if !isValidProjectName (some projectName)
       || !isValidJobName (some jobName) then false
  else
    match sanitizePath jobsDir [projectName, jobName ++ ".sh"] with
    | none => false
    | some jobPath => fsExists jobPath

/-- `getProjectJobs(projectName)` from src/utils/projectManager.js, with the
filesystem abstracted as a directory-listing oracle (`none` models both a
missing directory and a `readdirSync` failure, each of which makes the
source return `[]`).  Listed files ending in `.sh` have that first
occurrence of `.sh` removed to form job names. -/
def getProjectJobs (jobsDir : String) (fsDir : String → Option (List String))
    (projectName : String) : List String :=
  if projectName = "" then []
  else if !isValidProjectName (some projectName) then []
  else
    match sanitizePath jobsDir [projectName] with
    | none => []
    | some projectDir =>
      match fsDir projectDir with
      | none => []
      | some files =>
        (files.filter (fun f => isSuffixStr ".sh" f)).map
          (fun f => replaceFirstStr f ".sh")

/-! ## JavaScript object environments

A JavaScript object literal built with spreads, `{...a, ...b}`, maps a key
to the value of its last binding.  Objects are modelled as binding lists
(concatenation is spread) with a last-binding-wins lookup. -/

/-- Lookup in a binding list where later bindings shadow earlier ones. -/
def objLookup (o : List (String × String)) (k : String) : Option String :=
  o.foldl (fun acc p => if p.1 = k then some p.2 else acc) none

/-! ## src/server.js, the POST /webhook handler -/

/-- The request fields consulted by the webhook route handler, as left by
the middleware chain: `clientKey` is whatever `authenticateWebhook` attached
(the source middleware attaches nothing), and `bodyEnv` is the caller's
`req.body.env` object. -/
structure WebhookRequest where
  clientKey : Option String
  bodyProject : Option String
  queryProject : Option String
  bodyJob : Option String
  queryJob : Option String
  bodyEnv : List (String × String)
deriving DecidableEq

/-- Outcome of the webhook route handler.  `crash` models the uncaught
TypeError thrown by `clientKey.substring(0, 50)` in the logging call when
`req.clientKey` is `undefined`.  `response` carries the status code, the
message, and the optional `assignedProject`, `project` and `availableJobs`
fields of the JSON bodies written by the source.  `accepted` carries the
project, the job, and the `options.env` object handed to `executeJob`. -/
inductive WebhookOutcome where
  | crash (message : String)
  | response (status : Nat) (message : String)
      (assignedProject : Option String) (project : Option String)
      (availableJobs : Option (List String))
  | accepted (project job : String) (optionsEnv : List (String × String))
deriving DecidableEq

/-- Status code of a webhook outcome (the immediate acceptance response is a
plain 200 JSON body; a crash writes no response). -/
def webhookStatus : WebhookOutcome → Option Nat
  | .crash _ => none
  | .response s _ _ _ _ => some s
  | .accepted _ _ _ => some 200

/-- The POST /webhook handler of src/server.js, after `authenticateWebhook`
has called `next()`.  The filesystem-dependent calls are abstracted by the
`jobExistsFn` and `availableJobsFn` oracles, and the wall clock by
`timestamp`.  The source, in order: reads `req.clientKey`, takes the
requested project as body-over-query, likewise the job name, looks up the
assigned project, logs with `clientKey.substring(0, 50)` (throwing when
`clientKey` is `undefined`), then checks assigned project, project
parameter, job parameter, project match, and job existence, finally
responding `accepted` and calling `executeJob` with
`{WEBHOOK_CLIENT, WEBHOOK_TIMESTAMP, ...req.body.env}`. -/
def webhookHandler (clients : List (String × String))
    (jobExistsFn : String → String → Bool)
    (availableJobsFn : String → List String)
    (timestamp : String) (req : WebhookRequest) : WebhookOutcome :=
  let requestedProject := jsOr req.bodyProject req.queryProject
  let jobName := jsOr req.bodyJob req.queryJob
  let assignedProject := getClientProject req.clientKey clients
  match req.clientKey with
  | none => .crash "TypeError: Cannot read properties of undefined"
  | some clientKey =>
    -- if (!assignedProject): JavaScript falsiness, so a `null` lookup result
    -- and an empty-string project name are both rejected here
    if !jsTruthy assignedProject then
      .response 403 "No project assigned to this client" none none none
    else
      let assigned := assignedProject.getD ""
      if !jsTruthy requestedProject then
        .response 400 "No project specified" none none none
      else if !jsTruthy jobName then
        .response 400 "No job specified" none none none
      else
        let reqProj := requestedProject.getD ""
        let job := jobName.getD ""
        if reqProj ≠ assigned then
          .response 403 ("Not authorized for project: " ++ reqProj)
            (some assigned) none none
        else if !jobExistsFn assigned job then
          .response 404 ("Job not found: " ++ job) none (some assigned)
            (some (availableJobsFn assigned))
        else
          .accepted assigned job
            ([("WEBHOOK_CLIENT", jsSubstring clientKey 50),
              ("WEBHOOK_TIMESTAMP", timestamp)] ++ req.bodyEnv)

/-! ## utils/jobExecutor.js -/

/-- The environment object constructed by `executeJob` before spawning:
`{...process.env, ...(options.env || {}), PROJECT_NAME, JOB_NAME,
JOB_START_TIME}` — parent environment first, caller-supplied overrides
next, fixed identification variables last. -/
def buildJobEnv (parentEnv optionsEnv : List (String × String))
    (projectName jobName startTimeIso : String) : List (String × String) :=
  parentEnv ++ optionsEnv ++
    [("PROJECT_NAME", projectName),
     ("JOB_NAME", jobName),
     ("JOB_START_TIME", startTimeIso)]

/-- The terminal event of the spawned child process: either the `close`
handler fires with an exit code and the accumulated stdout/stderr text, or
the `error` handler fires with a spawn-level error message. -/
inductive ProcEvent where
  | closed (exitCode : Int) (stdout stderr : String)
  | errored (message : String)
deriving DecidableEq

/-- The result record built by the `close` handler of `executeJob`. -/
structure JobResult where
  projectName : String
  jobName : String
  exitCode : Int
  success : Bool
  duration : Nat
  stdout : String
  stderr : String
  startTime : String
  endTime : String
deriving DecidableEq

/-- The rejection values of `executeJob` in src/utils/jobExecutor.js:
a `JobExecutionError` for a missing job (nothing spawned), a
`JobExecutionError` for a non-zero exit code with the full result record
attached, or a distinct `JobExecutionError` for a spawn-level error that
carries no exit code and no stdout/stderr — only the job identity, a false
success flag, the duration and the underlying error message. -/
inductive ExecReject where
  | notFound (message : String)
  | failed (message : String) (result : JobResult)
  | spawnError (message : String) (projectName jobName : String)
      (success : Bool) (duration : Nat) (originalError : String)
deriving DecidableEq

/-- Outcome of one `executeJob` call: whether a child process was spawned,
and the settled promise (`Except.ok` for resolve, `Except.error` for
reject). -/
structure ExecOutcome where
  spawned : Bool
  settled : Except ExecReject JobResult

/-- `executeJob(projectName, jobName, options)` from src/utils/jobExecutor.js
as a function of the job-existence precondition and the terminal process
event, with the wall clock abstracted into the start/end timestamps and the
duration.  The promise resolves exactly on exit code 0; a non-zero exit code
rejects with the full result attached; a spawn error rejects with the
partial record; a missing job rejects before anything is spawned. -/
def executeJob (jobExistsB : Bool) (projectName jobName : String)
    (event : ProcEvent) (startTimeIso endTimeIso : String) (duration : Nat) :
    ExecOutcome :=
  if !jobExistsB then
    { spawned := false
      settled := .error (.notFound
        ("Job not found: " ++ projectName ++ "/" ++ jobName)) }
  else
    match event with
    | .closed exitCode stdout stderr =>
      let result : JobResult :=
        { projectName := projectName, jobName := jobName
          exitCode := exitCode, success := exitCode == 0
          duration := duration, stdout := stdout, stderr := stderr
          startTime := startTimeIso, endTime := endTimeIso }
      if exitCode == 0 then { spawned := true, settled := .ok result }
      else
        { spawned := true
          settled := .error (.failed
            ("Job failed with exit code " ++ toString exitCode) result) }
    | .errored message =>
      { spawned := true
        settled := .error (.spawnError
          ("Job execution error: " ++ message) projectName jobName
          false duration message) }

/-! ## General lemmas -/

/-- `verifyToken` on a non-empty token is exact trimmed membership. -/
theorem verifyToken_eq_true_iff (t : String) (keys : List String) (ht : t ≠ "") :
    verifyToken (some t) keys = true ↔ ∃ k ∈ keys, trimStr k = trimStr t := by
  simp [verifyToken, ht, List.any_eq_true]

/-- `verifyToken` on a non-empty token rejected by every trimmed entry. -/
theorem verifyToken_eq_false (t : String) (keys : List String)
    (h : ∀ k ∈ keys, trimStr k ≠ trimStr t) :
    verifyToken (some t) keys = false := by
  by_cases ht : t = ""
  · simp [verifyToken, ht]
  · simp [verifyToken, ht, List.any_eq_false]
    exact fun k hk => by simpa using h k hk

/-! ## Theorems for the claims -/

/-- Claim C1: the spec says the authenticate gate attaches the raw token to
the request context as `req.clientKey`; the middleware in
src/middleware/auth.js never assigns `req.clientKey`, contradicting its own
unit tests and the `req.clientKey` consumers in src/server.js and
src/middleware/projectAuth.js.  At a concrete authorized request the gate
passes with the request unchanged, `clientKey` stays absent, the
`getClientProject(req.clientKey)` lookup made on behalf of this caller
returns `null` even though the caller is assigned a project, and the
/webhook handler crashes on `clientKey.substring(0, 50)`. -/
theorem c1_clientKey_not_attached :
    authenticateWebhook
        ⟨some "valid-key-123", none, none, none, none⟩ ["valid-key-123"] =
      .next ⟨some "valid-key-123", none, none, none, none⟩
    ∧ (⟨some "valid-key-123", none, none, none, none⟩ : AuthRequest).clientKey
        = none
    ∧ getClientProject none [("valid-key-123", "project-a")] = none
    ∧ webhookHandler [("valid-key-123", "project-a")] (fun _ _ => true)
        (fun _ => []) "2024-01-01T00:00:00Z"
        ⟨none, some "project-a", none, some "deploy", none, []⟩ =
      .crash "TypeError: Cannot read properties of undefined" := by
  refine ⟨by decide, rfl, rfl, rfl⟩

/-- Claim C3: the spec says the token in the request body dominates the one
in the query string; `authenticateWebhook` in src/middleware/auth.js
evaluates `req.query.token || req.body?.token || ...`, so the query value
wins.  With an authorized body token and a different, unauthorized query
token the extracted token is the query value and the request is rejected
403, while the repository's own `getToken` helper (and the integration test
asserting body-over-query precedence) would pick the body value. -/
theorem c3_query_token_beats_body_token :
    extractToken ⟨some "body-tok", some "query-tok", none, none, none⟩ =
      some "query-tok"
    ∧ verifyToken (some "body-tok") ["body-tok"] = true
    ∧ authenticateWebhook ⟨some "body-tok", some "query-tok", none, none, none⟩
        ["body-tok"] = .fail 403 "Forbidden: Invalid or unauthorized token"
    ∧ getToken ⟨some "body-tok", some "query-tok", none, none, none⟩ =
      some "body-tok" := by
  refine ⟨by decide, by decide, by decide, by decide⟩

/-- Claim C4: the spec says an authorization header without the exact
`Bearer ` prefix yields no token, so a request with no other token source is
answered 401.  The middleware instead computes
`req.headers['authorization']?.replace('Bearer ', '')`, which leaves a
malformed header value unchanged and treats it as the presented token, so
the request with header `Basic abc` is answered 403 (invalid token), not
401 (no token).  The repository's `getToken` helper, which does check the
prefix, extracts nothing from the same request. -/
theorem c4_malformed_authorization_used_as_token :
    extractToken ⟨none, none, none, some "Basic abc", none⟩ = some "Basic abc"
    ∧ authenticateWebhook ⟨none, none, none, some "Basic abc", none⟩
        ["secret-key"] = .fail 403 "Forbidden: Invalid or unauthorized token"
    ∧ getToken ⟨none, none, none, some "Basic abc", none⟩ = none := by
  refine ⟨by decide, by decide, by decide⟩

/-- Claim C6: a request whose four token sources are all falsy is answered
401 with exactly `Unauthorized: No token provided`, and a request whose
extracted token is non-empty but, after trimming, matches no trimmed entry
of the authorized set is answered 403 with exactly
`Forbidden: Invalid or unauthorized token`. -/
theorem c6_exact_auth_error_responses (req : AuthRequest)
    (keys : List String) :
    (jsTruthy (extractToken req) = false →
      authenticateWebhook req keys =
        .fail 401 "Unauthorized: No token provided")
    ∧ (∀ t, extractToken req = some t → t ≠ "" →
        (∀ k ∈ keys, trimStr k ≠ trimStr t) →
        authenticateWebhook req keys =
          .fail 403 "Forbidden: Invalid or unauthorized token") := by
  constructor
  · intro h
    unfold authenticateWebhook
    cases hx : extractToken req with
    | none => rfl
    | some t =>
      rw [hx] at h
      simp only [jsTruthy] at h
      have ht : t = "" := by simpa using h
      simp [ht]
  · intro t hx ht hk
    unfold authenticateWebhook
    rw [hx]
    simp [ht, verifyToken_eq_false t keys hk]

/-- Witness for C6: a tokenless request gets the exact 401 body and a
request with an unknown token gets the exact 403 body. -/
theorem c6_exact_auth_error_responses_witness :
    authenticateWebhook ⟨none, none, none, none, none⟩ ["good-key"] =
      .fail 401 "Unauthorized: No token provided"
    ∧ authenticateWebhook ⟨some "bad-key", none, none, none, none⟩
        ["good-key"] = .fail 403 "Forbidden: Invalid or unauthorized token" :=
  ⟨(c6_exact_auth_error_responses ⟨none, none, none, none, none⟩
      ["good-key"]).1 (by decide),
   (c6_exact_auth_error_responses ⟨some "bad-key", none, none, none, none⟩
      ["good-key"]).2 "bad-key" (by decide) (by decide) (by decide)⟩

/-- Claim C2 counterexample: in the /webhook handler of src/server.js a
caller assigned to project-a requesting project-b with no job parameter is
answered 400 `No job specified`, not 403 with `assignedProject` — the
handler checks the job parameter before the project match, so the claimed
ordering (project gate completes before the job gate) fails, and the 400
also occurs when the requested project differs from the assigned one. -/
theorem c2_counterexample :
    webhookHandler [("key-a", "project-a")] (fun _ _ => true) (fun _ => [])
        "2024-01-01T00:00:00Z"
        ⟨some "key-a", some "project-b", none, none, none, []⟩ =
      .response 400 "No job specified" none none none
    ∧ webhookStatus
        (webhookHandler [("key-a", "project-a")] (fun _ _ => true)
          (fun _ => []) "2024-01-01T00:00:00Z"
          ⟨some "key-a", some "project-b", none, none, none, []⟩) ≠
      some 403 := by
  refine ⟨by decide, by decide⟩

/-- Claim C2 amended: in the src/server.js /webhook handler the job-presence
check runs before the project-match check.  For an authenticated caller with
a truthy assigned project `A` (the handler's `if (!assignedProject)` gate
rejects both a `null` lookup and an empty-string project name with 403
before this point) and requested project `B`: when the job parameter is
falsy the response is 400 `No job specified` regardless of whether `B`
equals `A`; when a job parameter is present and `B ≠ A` the response is 403
`Not authorized for project: B` carrying `assignedProject = A`, for every
job name and every filesystem state. -/
theorem c2_job_gate_before_project_match (clients : List (String × String))
    (jobExistsFn : String → String → Bool)
    (availableJobsFn : String → List String) (timestamp : String)
    (req : WebhookRequest) (ck A B : String)
    (hck : req.clientKey = some ck)
    (hA : getClientProject (some ck) clients = some A) (hAne : A ≠ "")
    (hB : jsOr req.bodyProject req.queryProject = some B) (hBne : B ≠ "") :
    (jsTruthy (jsOr req.bodyJob req.queryJob) = false →
      webhookHandler clients jobExistsFn availableJobsFn timestamp req =
        .response 400 "No job specified" none none none)
    ∧ (∀ j, jsOr req.bodyJob req.queryJob = some j → j ≠ "" → B ≠ A →
        webhookHandler clients jobExistsFn availableJobsFn timestamp req =
          .response 403 ("Not authorized for project: " ++ B)
            (some A) none none) := by
  constructor
  · intro hj
    unfold webhookHandler
    rw [hck]
    simp only [hA, hB, hj]
    have hAt : jsTruthy (some A) = true := by simp [jsTruthy, hAne]
    have hBt : jsTruthy (some B) = true := by simp [jsTruthy, hBne]
    simp [hAt, hBt]
  · intro j hj hjne hBA
    unfold webhookHandler
    rw [hck]
    simp only [hA, hB, hj]
    have hAt : jsTruthy (some A) = true := by simp [jsTruthy, hAne]
    have hBt : jsTruthy (some B) = true := by simp [jsTruthy, hBne]
    have hjt : jsTruthy (some j) = true := by simp [jsTruthy, hjne]
    simp [hAt, hBt, hjt, hBA]

/-- Witness for C2 amended: a concrete wrong-project request without a job
gets the 400 body, and the same request with a job gets the 403 body
carrying the assigned project. -/
theorem c2_job_gate_before_project_match_witness :
    webhookHandler [("key-a", "project-a")] (fun _ _ => true) (fun _ => [])
        "ts" ⟨some "key-a", some "project-b", none, none, none, []⟩ =
      .response 400 "No job specified" none none none
    ∧ webhookHandler [("key-a", "project-a")] (fun _ _ => true) (fun _ => [])
        "ts" ⟨some "key-a", some "project-b", none, some "deploy", none, []⟩ =
      .response 403 "Not authorized for project: project-b"
        (some "project-a") none none :=
  ⟨(c2_job_gate_before_project_match [("key-a", "project-a")]
      (fun _ _ => true) (fun _ => []) "ts"
      ⟨some "key-a", some "project-b", none, none, none, []⟩
      "key-a" "project-a" "project-b" rfl (by decide) (by decide)
      (by decide) (by decide)).1 (by decide),
   (c2_job_gate_before_project_match [("key-a", "project-a")]
      (fun _ _ => true) (fun _ => []) "ts"
      ⟨some "key-a", some "project-b", none, some "deploy", none, []⟩
      "key-a" "project-a" "project-b" rfl (by decide) (by decide)
      (by decide) (by decide)).2 "deploy" (by decide) (by decide)
      (by decide)⟩

/-- Claim C5 counterexample: the spec describes the path-safety acceptance
as canonical equality with the root or canonical root plus a path
separator; the source only calls `resolvedPath.startsWith(resolvedBase)`.
Joining `../jobs-evil` onto the root `/a/jobs` canonicalises to
`/a/jobs-evil`, which the code accepts (it is a plain string extension of
the root) although it is neither the root nor inside it, so the claimed
acceptance condition rejects it. -/
theorem c5_counterexample :
    sanitizePath "/a/jobs" ["../jobs-evil"] = some "/a/jobs-evil"
    ∧ sanitizePathSpecAccepts "/a/jobs" ["../jobs-evil"] = false := by
  refine ⟨by decide, by decide⟩

/-- Claim C5 amended: the path-safety check accepts exactly when the
canonical root is a plain string prefix of the canonical joined path — no
path-separator requirement, so sibling paths whose canonical form merely
extends the root's name are also accepted; rejection is by sentinel, with
`sanitizePath` returning `null` and `jobExists` / `getProjectJobs`
propagating it as `false` / the empty list without throwing. -/
theorem c5_plain_prefix_check (basePath : String) (segments : List String) :
    ((sanitizePath basePath segments).isSome =
      isPrefixStr (resolveAbs basePath) (resolveAbs (joinPath basePath segments)))
    ∧ (∀ jobsDir fsExists p j,
        sanitizePath jobsDir [p, j ++ ".sh"] = none →
        jobExists jobsDir fsExists p j = false)
    ∧ (∀ jobsDir fsDir p,
        sanitizePath jobsDir [p] = none →
        getProjectJobs jobsDir fsDir p = []) := by
  refine ⟨?_, ?_, ?_⟩
  · simp only [sanitizePath]
    split
    · simp_all
    · simp_all
  · intro jobsDir fsExists p j h
    unfold jobExists
    split
    · rfl
    · split
      · rfl
      · rw [h]
  · intro jobsDir fsDir p h
    unfold getProjectJobs
    split
    · rfl
    · split
      · rfl
      · rw [h]

/-- Witness for C5 amended: a `..` job segment that escapes the root makes
`sanitizePath` return `null`, and `jobExists` and `getProjectJobs` then
report the sentinel values. -/
theorem c5_plain_prefix_check_witness :
    jobExists "/a/jobs" (fun _ => true) ".." "x" = false
    ∧ getProjectJobs "/a/jobs" (fun _ => some ["deploy.sh"]) ".." = [] :=
  ⟨(c5_plain_prefix_check "/a/jobs" []).2.1 "/a/jobs" (fun _ => true)
      ".." "x" (by decide),
   (c5_plain_prefix_check "/a/jobs" []).2.2 "/a/jobs"
      (fun _ => some ["deploy.sh"]) ".." (by decide)⟩

/-- Claim C7: `loadAuthorizedKeys` yields exactly the trimmed lines of the
file that are non-empty and do not begin with `#`, and the empty collection
for a missing file; `verifyToken` is true exactly when the trimmed input
token equals some trimmed stored entry, and false for an absent or empty
token or an empty set. -/
theorem c7_key_store_contract :
    loadAuthorizedKeys none = []
    ∧ (∀ content line,
        line ∈ loadAuthorizedKeys (some content) ↔
          ∃ raw ∈ splitOnChar '\n' content,
            trimStr raw = line ∧ line ≠ "" ∧ isPrefixStr "#" line = false)
    ∧ (∀ t keys, t ≠ "" →
        (verifyToken (some t) keys = true ↔ ∃ k ∈ keys, trimStr k = trimStr t))
    ∧ (∀ keys, verifyToken none keys = false)
    ∧ (∀ t, verifyToken t ([] : List String) = false) := by
  refine ⟨rfl, ?_, ?_, fun _ => rfl, ?_⟩
  · intro content line
    simp only [loadAuthorizedKeys, List.mem_filter, List.mem_map]
    constructor
    · rintro ⟨⟨raw, hraw, hline⟩, hcond⟩
      simp only [Bool.and_eq_true, Bool.not_eq_true', decide_eq_true_eq]
        at hcond
      exact ⟨raw, hraw, hline, hcond.1, hcond.2⟩
    · rintro ⟨raw, hraw, hline, hne, hpre⟩
      refine ⟨⟨raw, hraw, hline⟩, ?_⟩
      simp [hne, hpre]
  · intro t keys ht
    exact verifyToken_eq_true_iff t keys ht
  · intro t
    cases t with
    | none => rfl
    | some s => by_cases hs : s = "" <;> simp [verifyToken, hs]

/-- Witness for C7: loading a concrete file keeps only the trimmed
non-comment lines, and a token with surrounding whitespace verifies against
a stored entry with different surrounding whitespace. -/
theorem c7_key_store_contract_witness :
    ("key-b" ∈ loadAuthorizedKeys (some "key-a\n# comment\n  key-b  \n"))
    ∧ verifyToken (some " tok ") ["tok"] = true :=
  ⟨(c7_key_store_contract.2.1 "key-a\n# comment\n  key-b  \n" "key-b").mpr
      ⟨"  key-b  ", by decide, by decide, by decide, by decide⟩,
   (c7_key_store_contract.2.2.1 " tok " ["tok"] (by decide)).mpr
      ⟨"tok", by decide, by decide⟩⟩

/-- Folding further bindings on top of an accumulator only changes keys
bound by those bindings. -/
theorem objLookup_foldl (b : List (String × String)) (x : Option String)
    (k : String) :
    b.foldl (fun acc p => if p.1 = k then some p.2 else acc) x =
      match objLookup b k with
      | some v => some v
      | none => x := by
  induction b generalizing x with
  | nil => simp [objLookup]
  | cons p rest ih =>
    have hcons : objLookup (p :: rest) k =
        match objLookup rest k with
        | some v => some v
        | none => if p.1 = k then some p.2 else none := by
      simp only [objLookup, List.foldl_cons]
      exact ih (if p.1 = k then some p.2 else none)
    rw [List.foldl_cons, ih (if p.1 = k then some p.2 else x), hcons]
    cases h : objLookup rest k with
    | none => by_cases hc : p.1 = k <;> simp [hc]
    | some v => simp

/-- Lookup across a spread: the right object wins on its keys. -/
theorem objLookup_append (a b : List (String × String)) (k : String) :
    objLookup (a ++ b) k =
      match objLookup b k with
      | some v => some v
      | none => objLookup a k := by
  unfold objLookup
  rw [List.foldl_append]
  exact objLookup_foldl b _ k

/-- The three fixed identification variables of `buildJobEnv` always map to
the runner-chosen values. -/
theorem buildJobEnv_fixed (parentEnv optionsEnv : List (String × String))
    (projectName jobName startTimeIso : String) :
    objLookup (buildJobEnv parentEnv optionsEnv projectName jobName
        startTimeIso) "PROJECT_NAME" = some projectName
    ∧ objLookup (buildJobEnv parentEnv optionsEnv projectName jobName
        startTimeIso) "JOB_NAME" = some jobName
    ∧ objLookup (buildJobEnv parentEnv optionsEnv projectName jobName
        startTimeIso) "JOB_START_TIME" = some startTimeIso := by
  unfold buildJobEnv
  rw [List.append_assoc]
  refine ⟨?_, ?_, ?_⟩ <;>
    rw [objLookup_append] <;>
    rw [objLookup_append] <;>
    simp [objLookup]

/-- Any key the caller-supplied options bind, other than the three fixed
identification variables, keeps the caller's value in the final
environment. -/
theorem buildJobEnv_options_override (parentEnv optionsEnv : List (String × String))
    (projectName jobName startTimeIso k v : String)
    (hk1 : k ≠ "PROJECT_NAME") (hk2 : k ≠ "JOB_NAME")
    (hk3 : k ≠ "JOB_START_TIME") (hv : objLookup optionsEnv k = some v) :
    objLookup (buildJobEnv parentEnv optionsEnv projectName jobName
        startTimeIso) k = some v := by
  unfold buildJobEnv
  rw [List.append_assoc, objLookup_append, objLookup_append, hv]
  have h1 : ¬ ("PROJECT_NAME" = k) := fun h => hk1 h.symm
  have h2 : ¬ ("JOB_NAME" = k) := fun h => hk2 h.symm
  have h3 : ¬ ("JOB_START_TIME" = k) := fun h => hk3 h.symm
  simp [objLookup, h1, h2, h3]

/-- Claim C8: in the environment `executeJob` constructs for the spawned
subprocess, `PROJECT_NAME`, `JOB_NAME` and `JOB_START_TIME` hold the
runner-set values even when `options.env` binds the same key, and every
other key bound by `options.env` overrides the inherited parent value. -/
theorem c8_fixed_env_keys_not_overridable
    (parentEnv optionsEnv : List (String × String))
    (projectName jobName startTimeIso : String) :
    objLookup (buildJobEnv parentEnv optionsEnv projectName jobName
        startTimeIso) "PROJECT_NAME" = some projectName
    ∧ objLookup (buildJobEnv parentEnv optionsEnv projectName jobName
        startTimeIso) "JOB_NAME" = some jobName
    ∧ objLookup (buildJobEnv parentEnv optionsEnv projectName jobName
        startTimeIso) "JOB_START_TIME" = some startTimeIso
    ∧ (∀ k v, k ≠ "PROJECT_NAME" → k ≠ "JOB_NAME" → k ≠ "JOB_START_TIME" →
        objLookup optionsEnv k = some v →
        objLookup (buildJobEnv parentEnv optionsEnv projectName jobName
          startTimeIso) k = some v) :=
  ⟨(buildJobEnv_fixed parentEnv optionsEnv projectName jobName startTimeIso).1,
   (buildJobEnv_fixed parentEnv optionsEnv projectName jobName
     startTimeIso).2.1,
   (buildJobEnv_fixed parentEnv optionsEnv projectName jobName
     startTimeIso).2.2,
   fun k v hk1 hk2 hk3 hv =>
     buildJobEnv_options_override parentEnv optionsEnv projectName jobName
       startTimeIso k v hk1 hk2 hk3 hv⟩

/-- Witness for C8: with `options.env` trying to spoof `PROJECT_NAME` and
override `PATH`, the final environment keeps the runner's project name and
the caller's `PATH`. -/
theorem c8_fixed_env_keys_not_overridable_witness :
    objLookup (buildJobEnv [("PATH", "/usr/bin")]
        [("PROJECT_NAME", "spoof"), ("PATH", "/evil")]
        "project-a" "deploy" "t0") "PROJECT_NAME" = some "project-a"
    ∧ objLookup (buildJobEnv [("PATH", "/usr/bin")]
        [("PROJECT_NAME", "spoof"), ("PATH", "/evil")]
        "project-a" "deploy" "t0") "PATH" = some "/evil" :=
  ⟨(c8_fixed_env_keys_not_overridable [("PATH", "/usr/bin")]
      [("PROJECT_NAME", "spoof"), ("PATH", "/evil")]
      "project-a" "deploy" "t0").1,
   (c8_fixed_env_keys_not_overridable [("PATH", "/usr/bin")]
      [("PROJECT_NAME", "spoof"), ("PATH", "/evil")]
      "project-a" "deploy" "t0").2.2.2 "PATH" "/evil" (by decide) (by decide)
      (by decide) (by decide)⟩

/-- Claim C9: `executeJob` resolves exactly on exit code 0 with the full
result record; a non-zero exit code rejects with an error carrying the full
result fields (exit code, `success:false`, accumulated stdout/stderr,
duration, start and end timestamps); a spawn-level error rejects with the
distinct `spawnError` value that carries no exit code and no stdout/stderr,
only the partial fields and the underlying message; and a missing job
rejects immediately with nothing spawned. -/
theorem c9_executor_settlement (projectName jobName : String)
    (event : ProcEvent) (startTimeIso endTimeIso : String) (duration : Nat) :
    (executeJob false projectName jobName event startTimeIso endTimeIso
        duration).spawned = false
    ∧ (executeJob false projectName jobName event startTimeIso endTimeIso
        duration).settled = .error (.notFound
          ("Job not found: " ++ projectName ++ "/" ++ jobName))
    ∧ (∀ stdout stderr,
        executeJob true projectName jobName (.closed 0 stdout stderr)
            startTimeIso endTimeIso duration =
          ⟨true, .ok ⟨projectName, jobName, 0, true, duration, stdout,
            stderr, startTimeIso, endTimeIso⟩⟩)
    ∧ (∀ exitCode stdout stderr, exitCode ≠ (0 : Int) →
        executeJob true projectName jobName
            (.closed exitCode stdout stderr) startTimeIso endTimeIso
            duration =
          ⟨true, .error (.failed
            ("Job failed with exit code " ++ toString exitCode)
            ⟨projectName, jobName, exitCode, false, duration, stdout,
              stderr, startTimeIso, endTimeIso⟩)⟩)
    ∧ (∀ message,
        executeJob true projectName jobName (.errored message) startTimeIso
            endTimeIso duration =
          ⟨true, .error (.spawnError ("Job execution error: " ++ message)
            projectName jobName false duration message)⟩) := by
  refine ⟨rfl, rfl, fun stdout stderr => rfl, ?_, fun message => rfl⟩
  intro exitCode stdout stderr hc
  have hb : (exitCode == (0 : Int)) = false := by
    simpa using hc
  simp [executeJob, hb]

/-- Witness for C9: a process closing with exit code 1 rejects with the full
result record attached. -/
theorem c9_executor_settlement_witness :
    executeJob true "project-a" "deploy" (.closed 1 "out" "err") "t0" "t1" 5 =
      ⟨true, .error (.failed "Job failed with exit code 1"
        ⟨"project-a", "deploy", 1, false, 5, "out", "err", "t0", "t1"⟩)⟩ :=
  (c9_executor_settlement "project-a" "deploy" (.closed 1 "out" "err")
    "t0" "t1" 5).2.2.2.1 1 "out" "err" (by decide)

/-- Claim C10: for an accepted webhook request the `options.env` handed to
`executeJob` is `{WEBHOOK_CLIENT, WEBHOOK_TIMESTAMP}` followed by every
binding of the request body's `env` object, so a remote caller's binding
wins for every key except `PROJECT_NAME`, `JOB_NAME` and `JOB_START_TIME`,
which the runner applies last; in particular a body binding overrides
`WEBHOOK_CLIENT`, `WEBHOOK_TIMESTAMP` and inherited variables such as
`PATH`, while the three fixed keys keep the runner-set values. -/
theorem c10_caller_controls_job_env (clients : List (String × String))
    (jobExistsFn : String → String → Bool)
    (availableJobsFn : String → List String) (timestamp : String)
    (req : WebhookRequest) (ck A j : String)
    (hck : req.clientKey = some ck)
    (hA : getClientProject (some ck) clients = some A) (hAne : A ≠ "")
    (hreq : jsOr req.bodyProject req.queryProject = some A)
    (hj : jsOr req.bodyJob req.queryJob = some j) (hjne : j ≠ "")
    (hje : jobExistsFn A j = true)
    (parentEnv : List (String × String)) (startTimeIso : String) :
    webhookHandler clients jobExistsFn availableJobsFn timestamp req =
      .accepted A j ([("WEBHOOK_CLIENT", jsSubstring ck 50),
        ("WEBHOOK_TIMESTAMP", timestamp)] ++ req.bodyEnv)
    ∧ (∀ k v, k ≠ "PROJECT_NAME" → k ≠ "JOB_NAME" → k ≠ "JOB_START_TIME" →
        objLookup req.bodyEnv k = some v →
        objLookup (buildJobEnv parentEnv
          ([("WEBHOOK_CLIENT", jsSubstring ck 50),
            ("WEBHOOK_TIMESTAMP", timestamp)] ++ req.bodyEnv)
          A j startTimeIso) k = some v)
    ∧ objLookup (buildJobEnv parentEnv
        ([("WEBHOOK_CLIENT", jsSubstring ck 50),
          ("WEBHOOK_TIMESTAMP", timestamp)] ++ req.bodyEnv)
        A j startTimeIso) "PROJECT_NAME" = some A
    ∧ objLookup (buildJobEnv parentEnv
        ([("WEBHOOK_CLIENT", jsSubstring ck 50),
          ("WEBHOOK_TIMESTAMP", timestamp)] ++ req.bodyEnv)
        A j startTimeIso) "JOB_NAME" = some j
    ∧ objLookup (buildJobEnv parentEnv
        ([("WEBHOOK_CLIENT", jsSubstring ck 50),
          ("WEBHOOK_TIMESTAMP", timestamp)] ++ req.bodyEnv)
        A j startTimeIso) "JOB_START_TIME" = some startTimeIso := by
  refine ⟨?_, ?_, ?_, ?_, ?_⟩
  · unfold webhookHandler
    rw [hck]
    simp only [hA, hreq, hj]
    have hAt : jsTruthy (some A) = true := by simp [jsTruthy, hAne]
    have hjt : jsTruthy (some j) = true := by simp [jsTruthy, hjne]
    simp [hAt, hjt, hje]
  · intro k v hk1 hk2 hk3 hv
    refine buildJobEnv_options_override parentEnv _ A j startTimeIso k v
      hk1 hk2 hk3 ?_
    rw [objLookup_append, hv]
  · exact (buildJobEnv_fixed parentEnv _ A j startTimeIso).1
  · exact (buildJobEnv_fixed parentEnv _ A j startTimeIso).2.1
  · exact (buildJobEnv_fixed parentEnv _ A j startTimeIso).2.2

/-- Witness for C10: a concrete accepted request whose body `env` spoofs
`WEBHOOK_CLIENT`, overrides `PATH` and attempts `PROJECT_NAME`: the final
environment takes the caller's `WEBHOOK_CLIENT` and `PATH` values and the
runner's `PROJECT_NAME`. -/
theorem c10_caller_controls_job_env_witness :
    webhookHandler [("key-a", "project-a")] (fun _ _ => true) (fun _ => [])
        "ts" ⟨some "key-a", some "project-a", none, some "deploy", none,
          [("WEBHOOK_CLIENT", "spoof"), ("PATH", "/evil")]⟩ =
      .accepted "project-a" "deploy"
        ([("WEBHOOK_CLIENT", jsSubstring "key-a" 50),
          ("WEBHOOK_TIMESTAMP", "ts")] ++
          [("WEBHOOK_CLIENT", "spoof"), ("PATH", "/evil")])
    ∧ objLookup (buildJobEnv [("PATH", "/usr/bin")]
        ([("WEBHOOK_CLIENT", jsSubstring "key-a" 50),
          ("WEBHOOK_TIMESTAMP", "ts")] ++
          [("WEBHOOK_CLIENT", "spoof"), ("PATH", "/evil")])
        "project-a" "deploy" "t0") "WEBHOOK_CLIENT" = some "spoof"
    ∧ objLookup (buildJobEnv [("PATH", "/usr/bin")]
        ([("WEBHOOK_CLIENT", jsSubstring "key-a" 50),
          ("WEBHOOK_TIMESTAMP", "ts")] ++
          [("WEBHOOK_CLIENT", "spoof"), ("PATH", "/evil")])
        "project-a" "deploy" "t0") "PATH" = some "/evil"
    ∧ objLookup (buildJobEnv [("PATH", "/usr/bin")]
        ([("WEBHOOK_CLIENT", jsSubstring "key-a" 50),
          ("WEBHOOK_TIMESTAMP", "ts")] ++
          [("WEBHOOK_CLIENT", "spoof"), ("PATH", "/evil")])
        "project-a" "deploy" "t0") "PROJECT_NAME" = some "project-a" :=
  ⟨(c10_caller_controls_job_env [("key-a", "project-a")] (fun _ _ => true)
      (fun _ => []) "ts"
      ⟨some "key-a", some "project-a", none, some "deploy", none,
        [("WEBHOOK_CLIENT", "spoof"), ("PATH", "/evil")]⟩
      "key-a" "project-a" "deploy" rfl (by decide) (by decide) (by decide)
      (by decide) (by decide) rfl [("PATH", "/usr/bin")] "t0").1,
   (c10_caller_controls_job_env [("key-a", "project-a")] (fun _ _ => true)
      (fun _ => []) "ts"
      ⟨some "key-a", some "project-a", none, some "deploy", none,
        [("WEBHOOK_CLIENT", "spoof"), ("PATH", "/evil")]⟩
      "key-a" "project-a" "deploy" rfl (by decide) (by decide) (by decide)
      (by decide) (by decide) rfl [("PATH", "/usr/bin")] "t0").2.1
      "WEBHOOK_CLIENT" "spoof" (by decide) (by decide) (by decide)
      (by decide),
   (c10_caller_controls_job_env [("key-a", "project-a")] (fun _ _ => true)
      (fun _ => []) "ts"
      ⟨some "key-a", some "project-a", none, some "deploy", none,
        [("WEBHOOK_CLIENT", "spoof"), ("PATH", "/evil")]⟩
      "key-a" "project-a" "deploy" rfl (by decide) (by decide) (by decide)
      (by decide) (by decide) rfl [("PATH", "/usr/bin")] "t0").2.1
      "PATH" "/evil" (by decide) (by decide) (by decide) (by decide),
   (c10_caller_controls_job_env [("key-a", "project-a")] (fun _ _ => true)
      (fun _ => []) "ts"
      ⟨some "key-a", some "project-a", none, some "deploy", none,
        [("WEBHOOK_CLIENT", "spoof"), ("PATH", "/evil")]⟩
      "key-a" "project-a" "deploy" rfl (by decide) (by decide) (by decide)
      (by decide) (by decide) rfl [("PATH", "/usr/bin")] "t0").2.2.1⟩

end Webhook
